import Mathlib

/-
Verification development for the jwt-visualiser repository.

Part I embeds the TypeScript code that is present in the repository
(the two versions of the zustand JWT store's setToken, and the ask page's
formatSignature helper), together with models of the browser builtins they
call (String.split, atob, JSON.parse modelled after their specified
behaviour).

Part II models the RAG knowledge pipeline (chunker, deduplicator, vector
index query, retriever, answer-streamer session machine).  The Python
backend implementing that pipeline is not part of the source tree (only
its documentation and its frontend callers are), so those definitions are
modelled from the specification, as noted on each one.
-/

namespace JwtVis

/-! ### Models of the browser builtins used by the jwt store code -/

/-- Model of JavaScript `token.split('.')` on the character level:
splitting at every dot, keeping empty segments, and returning the single
empty segment for the empty input. -/
def splitDotChars : List Char → List (List Char)
  | [] => [[]]
  | c :: rest =>
    match splitDotChars rest with
    | [] => [[]]
    | h :: t => if c = '.' then [] :: h :: t else (c :: h) :: t

/-- JavaScript `s.split('.')` as used by both setToken implementations. -/
def jsSplitDot (s : String) : List String :=
  (splitDotChars s.data).map (fun l => String.mk l)

/-- ASCII whitespace removed by the forgiving-base64 decode behind `atob`. -/
def isAsciiWs (c : Char) : Bool :=
  c = ' ' || c = '\t' || c = '\n' || c = '\x0c' || c = '\r'

/-- Value of a character in the standard base64 alphabet, if any. -/
def b64Val (c : Char) : Option Nat :=
  if 'A' ≤ c ∧ c ≤ 'Z' then some (c.toNat - 65)
  else if 'a' ≤ c ∧ c ≤ 'z' then some (c.toNat - 97 + 26)
  else if '0' ≤ c ∧ c ≤ '9' then some (c.toNat - 48 + 52)
  else if c = '+' then some 62
  else if c = '/' then some 63
  else none

/-- Forgiving-base64 padding removal: when the length is a multiple of
four, up to two trailing equals signs are stripped. -/
def stripB64Padding (l : List Char) : List Char :=
  if l.length % 4 = 0 then
    match l.reverse with
    | '=' :: '=' :: rest => rest.reverse
    | '=' :: rest => rest.reverse
    | _ => l
  else l

/-- Reassemble 6-bit base64 values into bytes (a trailing group of two or
three values contributes one or two bytes, leftover bits discarded). -/
def b64Bytes : List Nat → List Nat
  | a :: b :: c :: d :: rest =>
      (a * 4 + b / 16) :: ((b % 16) * 16 + c / 4) :: ((c % 4) * 64 + d) :: b64Bytes rest
  | [a, b] => [a * 4 + b / 16]
  | [a, b, c] => [a * 4 + b / 16, (b % 16) * 16 + c / 4]
  | _ => []

/-- Model of the browser builtin `atob` (forgiving-base64 decode): strip
ASCII whitespace, strip padding, reject a length-mod-4-equal-1 input or a
character outside the base64 alphabet, and otherwise decode to the binary
string of bytes. -/
def atobDecode (s : String) : Option String :=
  let data := stripB64Padding (s.data.filter (fun c => !isAsciiWs c))
  if data.length % 4 = 1 then none
  else
    match data.mapM b64Val with
    | none => none
    | some vals => some (String.mk ((b64Bytes vals).map Char.ofNat))

/-! ### A model of JSON.parse acceptance (ECMA-404 grammar) -/

/-- Whitespace accepted between JSON tokens. -/
def jsonWs (c : Char) : Bool :=
  c = ' ' || c = '\t' || c = '\n' || c = '\r'

/-- Skip JSON whitespace. -/
def skipJsonWs : List Char → List Char
  | [] => []
  | c :: rest => if jsonWs c then skipJsonWs rest else c :: rest

/-- Decimal digit test. -/
def isJsonDigit (c : Char) : Bool :=
  decide (48 ≤ c.toNat) && decide (c.toNat ≤ 57)

/-- Hexadecimal digit test, for string escapes. -/
def isHexDigit (c : Char) : Bool :=
  isJsonDigit c || (decide (97 ≤ c.toNat) && decide (c.toNat ≤ 102))
    || (decide (65 ≤ c.toNat) && decide (c.toNat ≤ 70))

/-- Consume the remainder of a JSON string literal after its opening
quote, validating escapes; returns the input after the closing quote. -/
def jsonStringRest : List Char → Option (List Char)
  | [] => none
  | c :: rest =>
    if c = '"' then some rest
    else if c = '\\' then
      match rest with
      | [] => none
      | e :: rest2 =>
        if e = '"' || e = '\\' || e = '/' || e = 'b' || e = 'f'
            || e = 'n' || e = 'r' || e = 't' then
          jsonStringRest rest2
        else if e = 'u' then
          match rest2 with
          | h1 :: h2 :: h3 :: h4 :: rest3 =>
            if isHexDigit h1 && isHexDigit h2 && isHexDigit h3 && isHexDigit h4 then
              jsonStringRest rest3
            else none
          | _ => none
        else none
    else if c.toNat < 32 then none
    else jsonStringRest rest

/-- Drop leading decimal digits. -/
def dropJsonDigits (l : List Char) : List Char :=
  l.dropWhile isJsonDigit

/-- Consume an optional JSON exponent part. -/
def jsonExpPart : List Char → Option (List Char)
  | [] => some []
  | c :: r =>
    if c = 'e' ∨ c = 'E' then
      let r1 := match r with
        | s :: r2 => if s = '+' ∨ s = '-' then r2 else s :: r2
        | [] => []
      match r1 with
      | d :: r2 => if isJsonDigit d then some (dropJsonDigits r2) else none
      | [] => none
    else some (c :: r)

/-- Consume an optional JSON fraction part, then the optional exponent. -/
def jsonFracPart : List Char → Option (List Char)
  | '.' :: r =>
    (match r with
     | d :: r2 => if isJsonDigit d then jsonExpPart (dropJsonDigits r2) else none
     | [] => none)
  | l => jsonExpPart l

/-- Consume a JSON number (sign, integer part, fraction, exponent). -/
def jsonNumber (l : List Char) : Option (List Char) :=
  let l1 := match l with
    | '-' :: r => r
    | _ => l
  match l1 with
  | '0' :: r => jsonFracPart r
  | c :: r => if isJsonDigit c then jsonFracPart (dropJsonDigits r) else none
  | [] => none

/-- Match an expected literal tail, as in `true`, `false`, `null`. -/
def jsonExpect : List Char → List Char → Option (List Char)
  | [], l => some l
  | e :: es, c :: l => if c = e then jsonExpect es l else none
  | _ :: _, [] => none

mutual

/-- Consume one JSON value (fuel-bounded recursive descent); model of the
grammar accepted by `JSON.parse`. -/
def jsonValue : Nat → List Char → Option (List Char)
  | 0, _ => none
  | fuel + 1, l =>
    match skipJsonWs l with
    | [] => none
    | c :: rest =>
      if c = '"' then jsonStringRest rest
      else if c = '\x7b' then
        match skipJsonWs rest with
        | '\x7d' :: r => some r
        | l2 => jsonMembers fuel l2
      else if c = '[' then
        match skipJsonWs rest with
        | ']' :: r => some r
        | l2 => jsonItems fuel l2
      else if c = 't' then jsonExpect ['r', 'u', 'e'] rest
      else if c = 'f' then jsonExpect ['a', 'l', 's', 'e'] rest
      else if c = 'n' then jsonExpect ['u', 'l', 'l'] rest
      else jsonNumber (c :: rest)

/-- Consume the members of a JSON object up to the closing brace. -/
def jsonMembers : Nat → List Char → Option (List Char)
  | 0, _ => none
  | fuel + 1, l =>
    match skipJsonWs l with
    | '"' :: rest =>
      (match jsonStringRest rest with
       | none => none
       | some r1 =>
         match skipJsonWs r1 with
         | ':' :: r2 =>
           (match jsonValue fuel r2 with
            | none => none
            | some r3 =>
              match skipJsonWs r3 with
              | ',' :: r4 => jsonMembers fuel r4
              | '\x7d' :: r4 => some r4
              | _ => none)
         | _ => none)
    | _ => none

/-- Consume the items of a JSON array up to the closing bracket. -/
def jsonItems : Nat → List Char → Option (List Char)
  | 0, _ => none
  | fuel + 1, l =>
    match jsonValue fuel l with
    | none => none
    | some r =>
      match skipJsonWs r with
      | ',' :: r2 => jsonItems fuel r2
      | ']' :: r2 => some r2
      | _ => none

end

/-- Model of `JSON.parse(s)` succeeding: one value, possibly surrounded by
whitespace, covering the whole text. -/
def jsonValid (s : String) : Bool :=
  match jsonValue (s.length + 1) s.data with
  | some rest => (skipJsonWs rest).isEmpty
  | none => false

/-! ### The two setToken implementations shipped in the repository -/

/-- The slice of the zustand store state that setToken writes. -/
structure JwtState where
  rawToken : String
  isValidStructure : Bool
  validationError : Option String
deriving DecidableEq, Repr

/-- The structure-check error message, shared verbatim by both
implementations. -/
def structureErrorMsg (n : Nat) : String :=
  "Invalid Structure: JWT must have 3 parts (Header.Payload.Signature). Found "
    ++ toString n ++ "."

/-- setToken from src/frontend/store/jwtStore.ts: empty check, 3-part
check, then bare `atob` on header and payload inside a try block. -/
def setTokenStore (token : String) : JwtState :=
  if token = "" then ⟨"", false, none⟩
  else
    match jsSplitDot token with
    | [p0, p1, _] =>
      if (atobDecode p0).isNone || (atobDecode p1).isNone then
        ⟨token, false,
          some "Invalid Encoding: Header or Payload is not valid Base64Url."⟩
      else ⟨token, true, none⟩
    | parts => ⟨token, false, some (structureErrorMsg parts.length)⟩

/-- The `isValidBase64Url` helper of the setToken embedded in
src/unnamed/part_005: convert base64url to base64, pad to a multiple of
four, `atob`, then require the decoded text to parse as JSON. -/
def isValidBase64Url (s : String) : Bool :=
  let base64 := s.data.map (fun c => if c = '-' then '+' else if c = '_' then '/' else c)
  let padded :=
    if base64.length % 4 = 0 then base64
    else base64 ++ List.replicate (4 - base64.length % 4) '='
  match atobDecode (String.mk padded) with
  | none => false
  | some decoded => jsonValid decoded

/-- setToken from src/unnamed/part_005: empty check, 3-part check,
base64url-plus-JSON validation of header and payload, then a non-empty
signature check. -/
def setTokenPart005 (token : String) : JwtState :=
  if token = "" then ⟨"", false, none⟩
  else
    match jsSplitDot token with
    | [p0, p1, p2] =>
      if !isValidBase64Url p0 || !isValidBase64Url p1 then
        ⟨token, false,
          some "Invalid Encoding: Header or Payload is not valid Base64URL or not valid JSON."⟩
      else if p2 = "" then
        ⟨token, false,
          some "Invalid Signature: Signature part is missing or empty."⟩
      else ⟨token, true, none⟩
    | parts => ⟨token, false, some (structureErrorMsg parts.length)⟩

/-! ### formatSignature from src/frontend/app/ask/page.tsx -/

/-- The chunking loop of formatSignature: consecutive 40-character slices
of the signature. -/
def chunkForty (l : List Char) : List (List Char) :=
  if l.isEmpty then []
  else l.take 40 :: chunkForty (l.drop 40)
termination_by l.length
decreasing_by
  simp only [List.length_drop]
  cases l with
  | nil => simp_all
  | cons a t => simp; omega

/-- The `chunks` array built by formatSignature for a signature. -/
def signatureChunks (sig : String) : List String :=
  (chunkForty sig.data).map (fun l => String.mk l)

/-- The template string formatSignature returns for a non-empty
signature, given the chunk list and the signature length. -/
def signatureTemplate (chunks : List String) (len : Nat) : String :=
  "\x7b\n  \"algorithm\": \"HMAC-SHA256 or RSA\",\n  \"value\": [\n    \""
    ++ String.intercalate "\",\n    \"" chunks
    ++ "\"\n  ],\n  \"length\": " ++ toString len
    ++ ",\n  \"note\": \"Signature is base64url-encoded binary data\"\n\x7d"

/-- formatSignature from src/frontend/app/ask/page.tsx. -/
def formatSignature (sig : String) : String :=
  if sig = "" then "\"[No Signature]\""
  else signatureTemplate (signatureChunks sig) sig.length

/-! ### Helper lemmas about the chunking loop -/

theorem chunkForty_flatten (l : List Char) : (chunkForty l).flatten = l := by
  induction l using chunkForty.induct with
  | case1 l hl =>
    rw [chunkForty, if_pos hl]
    rw [List.isEmpty_iff] at hl
    simp [hl]
  | case2 l hl ih =>
    rw [chunkForty, if_neg hl]
    simp only [List.flatten_cons]
    rw [ih]
    exact List.take_append_drop 40 l

theorem chunkForty_length_le (l : List Char) :
    ∀ c ∈ chunkForty l, c.length ≤ 40 := by
  induction l using chunkForty.induct with
  | case1 l hl =>
    rw [chunkForty, if_pos hl]
    intro c hc
    simp at hc
  | case2 l hl ih =>
    rw [chunkForty, if_neg hl]
    intro c hc
    rw [List.mem_cons] at hc
    rcases hc with hc | hc
    · subst hc
      simp [List.length_take]
    · exact ih c hc

theorem foldl_append_mk (ll : List (List Char)) (acc : List Char) :
    (ll.map (fun l => String.mk l)).foldl (· ++ ·) (String.mk acc)
      = String.mk (acc ++ ll.flatten) := by
  induction ll generalizing acc with
  | nil => simp
  | cons h t ih =>
    simp only [List.map_cons, List.foldl_cons, List.flatten_cons]
    rw [show String.mk acc ++ String.mk h = String.mk (acc ++ h) from rfl, ih]
    simp

theorem join_map_mk (ll : List (List Char)) :
    String.join (ll.map (fun l => String.mk l)) = String.mk ll.flatten := by
  show (ll.map (fun l => String.mk l)).foldl (· ++ ·) "" = String.mk ll.flatten
  rw [show ("" : String) = String.mk [] from rfl, foldl_append_mk]
  rfl

/-! ### Claims C8, C9, C10 -/

/-- C8 counterexample: the two setToken implementations do NOT produce the
same (isValidStructure, validationError) state on every input.  On the
token with a valid base64 header and payload but an empty signature part,
the jwtStore.ts version accepts while the part_005 version rejects. -/
theorem c8_setToken_counterexample :
    (setTokenStore "eyJhbGciOiJIUzI1NiJ9.eyJhIjoxfQ.").isValidStructure = true ∧
    (setTokenPart005 "eyJhbGciOiJIUzI1NiJ9.eyJhIjoxfQ.").isValidStructure = false ∧
    ¬ ((setTokenStore "eyJhbGciOiJIUzI1NiJ9.eyJhIjoxfQ.").isValidStructure
        = (setTokenPart005 "eyJhbGciOiJIUzI1NiJ9.eyJhIjoxfQ.").isValidStructure ∧
       (setTokenStore "eyJhbGciOiJIUzI1NiJ9.eyJhIjoxfQ.").validationError
        = (setTokenPart005 "eyJhbGciOiJIUzI1NiJ9.eyJhIjoxfQ.").validationError) := by
  decide

/-- C8 (amended): the two setToken implementations agree on the resulting
(isValidStructure, validationError) state whenever the input token is
empty or does not split into exactly three dot-separated parts; on
three-part tokens they can disagree, because the part_005 version adds
JSON and empty-signature checks and uses different error messages. -/
theorem c8_setToken_agree_off_three_parts (token : String)
    (h : token = "" ∨ (jsSplitDot token).length ≠ 3) :
    (setTokenStore token).isValidStructure = (setTokenPart005 token).isValidStructure ∧
    (setTokenStore token).validationError = (setTokenPart005 token).validationError := by
  by_cases ht : token = ""
  · subst ht
    exact ⟨rfl, rfl⟩
  · have hlen : (jsSplitDot token).length ≠ 3 := by
      rcases h with h | h
      · exact absurd h ht
      · exact h
    unfold setTokenStore setTokenPart005
    rw [if_neg ht, if_neg ht]
    rcases hp : jsSplitDot token with _ | ⟨p0, _ | ⟨p1, _ | ⟨p2, _ | ⟨p3, rest⟩⟩⟩⟩
    · exact ⟨rfl, rfl⟩
    · exact ⟨rfl, rfl⟩
    · exact ⟨rfl, rfl⟩
    · exact absurd (by rw [hp]; rfl) hlen
    · exact ⟨rfl, rfl⟩

/-- Witness for the amended C8 theorem at the concrete two-part token. -/
theorem c8_setToken_agree_witness :
    (("a.b" : String) = "" ∨ (jsSplitDot "a.b").length ≠ 3) ∧
    ((setTokenStore "a.b").isValidStructure = (setTokenPart005 "a.b").isValidStructure ∧
     (setTokenStore "a.b").validationError = (setTokenPart005 "a.b").validationError) :=
  ⟨Or.inr (by decide), c8_setToken_agree_off_three_parts "a.b" (Or.inr (by decide))⟩

/-- C9: after either setToken implementation runs, a valid-structure state
carries no validation error, and the empty-string input resets the store
state. -/
theorem c9_setToken_state_invariant (token : String) :
    ((setTokenStore token).isValidStructure = false
      ∨ (setTokenStore token).validationError = none) ∧
    ((setTokenPart005 token).isValidStructure = false
      ∨ (setTokenPart005 token).validationError = none) ∧
    setTokenStore "" = ⟨"", false, none⟩ ∧
    setTokenPart005 "" = ⟨"", false, none⟩ := by
  refine ⟨?_, ?_, rfl, rfl⟩
  · unfold setTokenStore
    repeat' split
    all_goals simp
  · unfold setTokenPart005
    repeat' split
    all_goals simp

/-- C10: for a non-empty signature, formatSignature splits it into
consecutive chunks of at most 40 characters whose in-order concatenation
is exactly the signature, and renders them through the fixed template; the
empty signature yields the fixed placeholder. -/
theorem c10_formatSignature (sig : String) (h : sig ≠ "") :
    (∀ c ∈ signatureChunks sig, c.length ≤ 40) ∧
    String.join (signatureChunks sig) = sig ∧
    formatSignature sig = signatureTemplate (signatureChunks sig) sig.length ∧
    formatSignature "" = "\"[No Signature]\"" := by
  refine ⟨?_, ?_, ?_, rfl⟩
  · intro c hc
    unfold signatureChunks at hc
    rw [List.mem_map] at hc
    obtain ⟨l, hl, hcl⟩ := hc
    subst hcl
    exact chunkForty_length_le sig.data l hl
  · unfold signatureChunks
    rw [join_map_mk, chunkForty_flatten]
  · unfold formatSignature
    rw [if_neg h]

/-- Witness for the C10 theorem at a concrete 50-character signature. -/
theorem c10_formatSignature_witness :
    (("abcdefghijklmnopqrstuvwxyz0123456789abcdefghijklmn" : String) ≠ "") ∧
    ((∀ c ∈ signatureChunks "abcdefghijklmnopqrstuvwxyz0123456789abcdefghijklmn",
        c.length ≤ 40) ∧
     String.join (signatureChunks "abcdefghijklmnopqrstuvwxyz0123456789abcdefghijklmn")
        = "abcdefghijklmnopqrstuvwxyz0123456789abcdefghijklmn" ∧
     formatSignature "abcdefghijklmnopqrstuvwxyz0123456789abcdefghijklmn"
        = signatureTemplate
            (signatureChunks "abcdefghijklmnopqrstuvwxyz0123456789abcdefghijklmn")
            (String.length "abcdefghijklmnopqrstuvwxyz0123456789abcdefghijklmn") ∧
     formatSignature "" = "\"[No Signature]\"") :=
  ⟨by decide, c10_formatSignature "abcdefghijklmnopqrstuvwxyz0123456789abcdefghijklmn" (by decide)⟩

/-! ### Part II: the RAG knowledge pipeline, modelled from the spec

The backend package implementing the pipeline (document chunker,
deduplicator, vector index, retriever, ask session handler) is not part of
the source tree; only its documentation and frontend callers are.  The
definitions below are therefore modelled from the specification. -/

/-- Modelled from the spec: source priority levels, ordered
critical over high over normal (spec data model, SourceDescriptor). -/
inductive Priority
  | critical
  | high
  | normal
deriving DecidableEq, Repr

/-- Numeric rank of a priority; smaller rank means higher priority. -/
def Priority.rank : Priority → Nat
  | .critical => 0
  | .high => 1
  | .normal => 2

/-- Modelled from the spec: static source configuration
(SourceDescriptor in the spec data model). -/
structure SourceDescriptor where
  url : String
  declaredType : String
  sourceName : String
  priority : Priority
deriving DecidableEq, Repr

/-- Modelled from the spec: raw fetched document (RawDocument in the spec
data model); fetchedAt is an abstract timestamp. -/
structure RawDocument where
  source : SourceDescriptor
  text : String
  fetchedAt : Nat
deriving DecidableEq, Repr

/-- Modelled from the spec: an attributed chunk of a source document
(Chunk in the spec data model).  The spec's stable content hash for `id`
is modelled by a stable injective encoding of (source_url, chunk_index). -/
structure Chunk where
  id : String
  text : String
  sourceUrl : String
  sourceName : String
  sourceType : String
  sectionId : String
  priority : Priority
  chunkIndex : Nat
  totalChunks : Nat
  contentPreview : String
  scrapedAt : Nat
deriving DecidableEq, Repr

/-- Modelled from the spec: the chunker precondition violation is a
ConfigurationError. -/
inductive ChunkError
  | configurationError
deriving DecidableEq, Repr

/-- Length of the content preview: the first 200 characters of the chunk
text (the spec allows 150 to 200). -/
def previewLength : Nat := 200

/-- Modelled from the spec: the sliding-window splitting loop of the
chunker.  Each step emits a window of `size` characters and advances by
`step = size - overlap`; the last window is the one that reaches the end
of the document.  Fuel bounds the recursion and never runs out for the
chunker's calls, where `step` is at least one. -/
def chunkWindows : Nat → Nat → Nat → List Char → List (List Char)
  | 0, _, _, _ => []
  | _, _, _, [] => []
  | fuel + 1, size, step, t =>
    if t.length ≤ size then [t]
    else t.take size :: chunkWindows fuel size step (t.drop step)

/-- Modelled from the spec: build the Chunk records for the emitted
windows, assigning consecutive chunk indexes and the preview taken
verbatim from the start of the chunk text. -/
def mkChunks (src : SourceDescriptor) (scrapedAt : Nat) (total : Nat) :
    Nat → List (List Char) → List Chunk
  | _, [] => []
  | i, t :: rest =>
    { id := src.url ++ "#chunk-" ++ toString i
      text := String.mk t
      sourceUrl := src.url
      sourceName := src.sourceName
      sourceType := src.declaredType
      sectionId := ""
      priority := src.priority
      chunkIndex := i
      totalChunks := total
      contentPreview := String.mk (t.take previewLength)
      scrapedAt := scrapedAt } :: mkChunks src scrapedAt total (i + 1) rest

/-- Modelled from the spec: the Document Chunker contract
`chunk(document, chunk_size, overlap)`, failing with a ConfigurationError
unless `overlap < chunk_size`. -/
def chunk (document : RawDocument) (chunkSize overlap : Nat) :
    Except ChunkError (List Chunk) :=
  if chunkSize ≤ overlap then .error .configurationError
  else
    let windows := chunkWindows (document.text.data.length + 1) chunkSize
      (chunkSize - overlap) document.text.data
    .ok (mkChunks document.source document.fetchedAt windows.length 0 windows)

/-! ### Deduplicator, modelled from the spec -/

/-- Normalization applied before comparing chunk texts: whitespace
characters become plain spaces, runs of spaces collapse, letters are
case-folded. -/
def normalizeChars (l : List Char) : List Char :=
  squeezeSpaces (l.map (fun c => if isAsciiWs c then ' ' else c.toLower))
where
  /-- Collapse consecutive spaces to a single space. -/
  squeezeSpaces : List Char → List Char
    | [] => []
    | [c] => [c]
    | a :: b :: rest =>
      if a = ' ' ∧ b = ' ' then squeezeSpaces (b :: rest)
      else a :: squeezeSpaces (b :: rest)

/-- The deduplication key of a chunk: its normalized text. -/
def nkey (c : Chunk) : List Char := normalizeChars c.text.data

/-- Keep the chunk whose source has the strictly higher priority; on equal
priority the earlier (first) chunk wins. -/
def pickHigherPriority (a b : Chunk) : Chunk :=
  if b.priority.rank < a.priority.rank then b else a

/-- Modelled from the spec: the Deduplicator contract `dedupe(chunks)`.
Chunks with the same normalized text are merged into one, kept at the
position of the first occurrence, represented by the highest-priority
member of the group (first occurrence wins by priority order, not arrival
order); later duplicates are dropped. -/
def dedupe : List Chunk → List Chunk
  | [] => []
  | c :: rest =>
    (rest.filter (fun d => decide (nkey d = nkey c))).foldl pickHigherPriority c ::
      dedupe (rest.filter (fun d => !decide (nkey d = nkey c)))
termination_by l => l.length
decreasing_by
  simp only [List.length_cons]
  exact Nat.lt_succ_of_le (List.length_filter_le _ _)

/-! ### Vector index query and retriever, modelled from the spec -/

/-- Modelled from the spec: a stored vector with its metadata
(IndexedVector in the spec data model, with the tie-breaking metadata the
query contract needs).  Embeddings are fixed-dimension numeric vectors,
modelled over the rationals. -/
structure StoredEntry where
  chunkId : String
  embedding : List ℚ
  text : String
  contentPreview : String
  sourceUrl : String
  priority : Priority
  chunkIndex : Nat
deriving DecidableEq, Repr

/-- Modelled from the spec: a per-query retrieval result
(RetrievalResult in the spec data model). -/
structure RetrievalResult where
  entry : StoredEntry
  score : ℚ
deriving DecidableEq, Repr

/-- The ranking relation the query contract requires on its output:
descending similarity score, ties broken by priority (critical over high
over normal), then by chunk index ascending. -/
def rankedBefore (a b : RetrievalResult) : Prop :=
  b.score < a.score ∨
    (a.score = b.score ∧
      (a.entry.priority.rank < b.entry.priority.rank ∨
        (a.entry.priority.rank = b.entry.priority.rank ∧
          a.entry.chunkIndex ≤ b.entry.chunkIndex)))

/-- Boolean comparator deciding `rankedBefore`, used by the sort. -/
def resultLE (a b : RetrievalResult) : Bool :=
  decide (b.score < a.score) ||
    (decide (a.score = b.score) &&
      (decide (a.entry.priority.rank < b.entry.priority.rank) ||
        (decide (a.entry.priority.rank = b.entry.priority.rank) &&
          decide (a.entry.chunkIndex ≤ b.entry.chunkIndex))))

/-- Dot-product similarity of two embeddings (the spec leaves the exact
similarity abstract; scores are only compared within one query batch). -/
def dotSim (a b : List ℚ) : ℚ :=
  (a.zip b).foldl (fun acc p => acc + p.1 * p.2) 0

/-- Modelled from the spec: the Vector Index query contract
`query(collection, query_embedding, top_k)`: score every stored entry,
sort by the ranking relation, return the first top_k. -/
def queryIndex (collection : List StoredEntry) (queryEmbedding : List ℚ)
    (topK : Nat) : List RetrievalResult :=
  ((collection.map (fun e => ⟨e, dotSim e.embedding queryEmbedding⟩)).mergeSort
    resultLE).take topK

/-- Modelled from the spec: retriever configuration (RAG enabled flag,
score floor, context character budget). -/
structure RetrieverConfig where
  ragEnabled : Bool
  scoreFloor : ℚ
  contextBudget : Nat
deriving DecidableEq, Repr

/-- Modelled from the spec: the ranked, budget-limited context assembled
for one question (ContextBundle in the spec glossary). -/
structure ContextBundle where
  results : List RetrievalResult
  contextUsed : String
deriving DecidableEq, Repr

/-- The empty context bundle returned on the degraded paths. -/
def emptyBundle : ContextBundle := ⟨[], ""⟩

/-- Modelled from the spec: fatal retrieval error surfaced to the caller
(embedding dimension mismatch, per the Vector Index failure modes). -/
inductive RetrieveError
  | embeddingDimensionMismatch
deriving DecidableEq, Repr

/-- Keep ranked results while their contents fit in the character budget;
when the budget is exceeded, lower-ranked results are dropped, never
truncated mid-result. -/
def budgetTake (budget : Nat) : List RetrievalResult → List RetrievalResult
  | [] => []
  | r :: rest =>
    if r.entry.text.length ≤ budget then
      r :: budgetTake (budget - r.entry.text.length) rest
    else []

/-- Modelled from the spec: the Retriever contract
`retrieve(question, top_k)`.  RAG disabled or two empty collections
degrade to the empty bundle without error; otherwise the question is
embedded once, both collections are queried (the Q&A collection with the
smaller top_k), results are merged by score, floored, and budget-limited. -/
def retrieve (cfg : RetrieverConfig) (embed : String → List ℚ)
    (knowledge qaCollection : List StoredEntry) (question : String)
    (topK : Nat) : Except RetrieveError ContextBundle :=
  if cfg.ragEnabled = false then .ok emptyBundle
  else if knowledge = [] ∧ qaCollection = [] then .ok emptyBundle
  else
    let qemb := embed question
    if (knowledge ++ qaCollection).any
        (fun e => decide (e.embedding.length ≠ qemb.length)) then
      .error .embeddingDimensionMismatch
    else
      let kResults := queryIndex knowledge qemb topK
      let qaResults := queryIndex qaCollection qemb (max (topK / 2) 1)
      let merged := ((kResults ++ qaResults).filter
        (fun r => decide (cfg.scoreFloor ≤ r.score))).mergeSort resultLE
      let chosen := budgetTake cfg.contextBudget merged
      .ok ⟨chosen, String.intercalate "\n\n" (chosen.map (fun r => r.entry.text))⟩

/-! ### Answer streamer session machine, modelled from the spec -/

/-- Modelled from the spec: the session states of the answer streamer. -/
inductive SessionPhase
  | idle
  | connecting
  | connected
  | awaitingAnswer
  | streaming
  | completeForQuestion
  | errored
deriving DecidableEq, Repr

/-- Modelled from the spec: per-session state; `inflight` is the at most
one question currently being answered (there is no queue). -/
structure Session where
  phase : SessionPhase
  inflight : Option String
deriving DecidableEq, Repr

/-- The immediate signal emitted when a question is submitted. -/
inductive AskSignal
  | accepted
  | busyError
  | notConnected
deriving DecidableEq, Repr

/-- Modelled from the spec: submitting a question to a session.  A session
already awaiting an answer or streaming rejects with an immediate busy
error and is left unchanged (the question is neither processed nor
queued); a connected session accepts and moves to awaiting_answer. -/
def submitQuestion (s : Session) (q : String) : Session × AskSignal :=
  if s.phase = .awaitingAnswer ∨ s.phase = .streaming then (s, .busyError)
  else if s.phase = .connected then
    ({ phase := .awaitingAnswer, inflight := some q }, .accepted)
  else (s, .notConnected)

/-! ### Streaming trace and cancellation, modelled from the spec -/

/-- Modelled from the spec: a recorded question/answer pair
(QAEntry in the spec data model, reduced to the fields the cancellation
claim speaks about). -/
structure QAEntry where
  question : String
  answer : String
deriving DecidableEq, Repr

/-- Modelled from the spec: the typed events observed on the ask channel
while one question is answered. -/
inductive StreamEvent
  | streamStart
  | fragment (text : String)
  | completeEvent (fullText : String)
  | disconnect
deriving DecidableEq, Repr

/-- Outcome of processing one question's event trace. -/
inductive StreamOutcome
  | completedOutcome
  | cancelledGeneration
  | stillStreaming
deriving DecidableEq, Repr

/-- Modelled from the spec: processing of one question's event trace by
the answer streamer.  Only a complete event writes the Q&A pair to the
store; a disconnect cancels the in-flight generation on the spot, writing
nothing and processing no further events. -/
def runAsk (question : String) (store : List QAEntry) :
    List StreamEvent → List QAEntry × StreamOutcome
  | [] => (store, .stillStreaming)
  | .completeEvent fullText :: _ => (store ++ [⟨question, fullText⟩], .completedOutcome)
  | .disconnect :: _ => (store, .cancelledGeneration)
  | .streamStart :: rest => runAsk question store rest
  | .fragment _ :: rest => runAsk question store rest

/-! ### Claims C2, C3, C5, C6 -/

/-- C2: submitting a question on a session already awaiting an answer or
streaming is rejected with an immediate busy error, and the session is
left unchanged, so the question is neither processed nor silently queued
and each session keeps at most one in-flight question. -/
theorem c2_session_single_flight (s : Session) (q : String)
    (h : s.phase = .awaitingAnswer ∨ s.phase = .streaming) :
    submitQuestion s q = (s, .busyError) := by
  unfold submitQuestion
  rw [if_pos h]

/-- Witness for the C2 theorem on a concrete streaming session. -/
theorem c2_session_single_flight_witness :
    ((Session.mk .streaming (some "first") : Session).phase = .awaitingAnswer
      ∨ (Session.mk .streaming (some "first") : Session).phase = .streaming) ∧
    submitQuestion ⟨.streaming, some "first"⟩ "second"
      = (⟨.streaming, some "first"⟩, .busyError) :=
  ⟨Or.inr rfl, c2_session_single_flight ⟨.streaming, some "first"⟩ "second" (Or.inr rfl)⟩

/-- Processing a trace that disconnects before any complete event leaves
the Q&A store untouched and ends in a cancelled generation. -/
theorem runAsk_disconnect_before_complete (question : String)
    (store : List QAEntry) (pre post : List StreamEvent)
    (hnc : ∀ fullText, StreamEvent.completeEvent fullText ∉ pre) :
    runAsk question store (pre ++ StreamEvent.disconnect :: post)
      = (store, .cancelledGeneration) := by
  induction pre with
  | nil => rfl
  | cons e rest ih =>
    have hrest : ∀ fullText, StreamEvent.completeEvent fullText ∉ rest :=
      fun t ht => hnc t (List.mem_cons_of_mem _ ht)
    cases e with
    | streamStart =>
      simp only [List.cons_append, runAsk]
      exact ih hrest
    | fragment s =>
      simp only [List.cons_append, runAsk]
      exact ih hrest
    | completeEvent t =>
      exact absurd (List.mem_cons_self _ _) (hnc t)
    | disconnect => rfl

/-- C3: if the connection drops after stream_start but before the
complete event, the in-flight generation is cancelled and no QAEntry for
that question is written: the Q&A store is exactly what it was before the
question. -/
theorem c3_disconnect_writes_nothing (question : String)
    (store : List QAEntry) (pre post : List StreamEvent)
    (hstart : StreamEvent.streamStart ∈ pre)
    (hnc : ∀ fullText, StreamEvent.completeEvent fullText ∉ pre) :
    runAsk question store (pre ++ StreamEvent.disconnect :: post)
      = (store, .cancelledGeneration) :=
  runAsk_disconnect_before_complete question store pre post hnc

/-- Witness for the C3 theorem on a concrete partial-stream trace. -/
theorem c3_disconnect_writes_nothing_witness :
    StreamEvent.streamStart ∈ [StreamEvent.streamStart, StreamEvent.fragment "par"] ∧
    (∀ fullText, StreamEvent.completeEvent fullText
      ∉ [StreamEvent.streamStart, StreamEvent.fragment "par"]) ∧
    runAsk "what is exp" []
        ([StreamEvent.streamStart, StreamEvent.fragment "par"]
          ++ StreamEvent.disconnect :: [])
      = ([], .cancelledGeneration) :=
  ⟨by decide, fun t => by simp,
   c3_disconnect_writes_nothing "what is exp" []
     [StreamEvent.streamStart, StreamEvent.fragment "par"] []
     (by decide) (fun t => by simp)⟩

/-- C5: the chunker has precondition overlap strictly below chunk_size;
every call violating it fails with a ConfigurationError instead of
returning a chunk list. -/
theorem c5_chunk_precondition (document : RawDocument) (chunkSize overlap : Nat)
    (h : chunkSize ≤ overlap) :
    chunk document chunkSize overlap = .error .configurationError := by
  unfold chunk
  rw [if_pos h]

/-- Witness for the C5 theorem on a concrete over-large overlap. -/
theorem c5_chunk_precondition_witness :
    3 ≤ 5 ∧
    chunk ⟨⟨"https://rfc", "spec", "RFC 7519", .critical⟩, "header payload", 0⟩ 3 5
      = .error .configurationError :=
  ⟨by decide,
   c5_chunk_precondition ⟨⟨"https://rfc", "spec", "RFC 7519", .critical⟩, "header payload", 0⟩
     3 5 (by decide)⟩

/-- C6: with RAG disabled, or with both the knowledge and the Q&A
collection empty, retrieve returns the empty ContextBundle and raises no
error. -/
theorem c6_retrieve_degrades_empty (cfg : RetrieverConfig)
    (embed : String → List ℚ) (knowledge qaCollection : List StoredEntry)
    (question : String) (topK : Nat)
    (h : cfg.ragEnabled = false ∨ (knowledge = [] ∧ qaCollection = [])) :
    retrieve cfg embed knowledge qaCollection question topK = .ok emptyBundle
      ∧ emptyBundle.results = [] := by
  refine ⟨?_, rfl⟩
  unfold retrieve
  rcases h with h | h
  · rw [if_pos h]
  · by_cases hr : cfg.ragEnabled = false
    · rw [if_pos hr]
    · rw [if_neg hr, if_pos h]

/-- Witness for the C6 theorem on a concrete empty index with RAG
enabled. -/
theorem c6_retrieve_degrades_empty_witness :
    ((RetrieverConfig.mk true 0 4000).ragEnabled = false ∨
      (([] : List StoredEntry) = [] ∧ ([] : List StoredEntry) = [])) ∧
    (retrieve ⟨true, 0, 4000⟩ (fun _ => []) [] [] "what is a jwt" 5 = .ok emptyBundle
      ∧ emptyBundle.results = []) :=
  ⟨Or.inr ⟨rfl, rfl⟩,
   c6_retrieve_degrades_empty ⟨true, 0, 4000⟩ (fun _ => []) [] [] "what is a jwt" 5
     (Or.inr ⟨rfl, rfl⟩)⟩

/-! ### Claim C1: content previews are verbatim substrings -/

/-- Every chunk built by mkChunks has a text that is its content preview
followed by the rest of the text. -/
theorem mkChunks_preview (src : SourceDescriptor) (scrapedAt total : Nat) :
    ∀ (i : Nat) (ts : List (List Char)), ∀ c ∈ mkChunks src scrapedAt total i ts,
      c.text.data = c.contentPreview.data ++ c.text.data.drop previewLength := by
  intro i ts
  induction ts generalizing i with
  | nil =>
    intro c hc
    simp [mkChunks] at hc
  | cons t rest ih =>
    intro c hc
    rw [mkChunks, List.mem_cons] at hc
    rcases hc with hc | hc
    · subst hc
      exact (List.take_append_drop previewLength t).symm
    · exact ih (i + 1) c hc

/-- C1: every chunk the chunker produces, for any document and any
accepted (chunk_size, overlap) pair, has a content_preview that is a
verbatim character-for-character substring of that chunk's text. -/
theorem c1_preview_is_substring (document : RawDocument)
    (chunkSize overlap : Nat) (cs : List Chunk)
    (h : chunk document chunkSize overlap = .ok cs) :
    ∀ c ∈ cs, ∃ pre post, c.text.data = pre ++ c.contentPreview.data ++ post := by
  unfold chunk at h
  split at h
  · exact absurd h (by simp)
  · rw [Except.ok.injEq] at h
    subst h
    intro c hc
    refine ⟨[], c.text.data.drop previewLength, ?_⟩
    simpa using mkChunks_preview document.source document.fetchedAt _ 0 _ c hc

/-- Witness for the C1 theorem on a concrete document and parameters. -/
theorem c1_preview_is_substring_witness :
    ∃ cs, chunk ⟨⟨"https://jwt.io", "documentation", "JWT Intro", .high⟩,
        "a json web token is a compact token format for claims transport", 0⟩ 24 6
      = .ok cs ∧
      ∀ c ∈ cs, ∃ pre post, c.text.data = pre ++ c.contentPreview.data ++ post :=
  ⟨_, rfl,
   c1_preview_is_substring ⟨⟨"https://jwt.io", "documentation", "JWT Intro", .high⟩,
       "a json web token is a compact token format for claims transport", 0⟩ 24 6 _ rfl⟩

/-! ### Claim C7: query ordering -/

theorem resultLE_iff (a b : RetrievalResult) :
    resultLE a b = true ↔ rankedBefore a b := by
  simp [resultLE, rankedBefore]

theorem rankedBefore_trans (a b c : RetrievalResult) :
    rankedBefore a b → rankedBefore b c → rankedBefore a c := by
  intro h1 h2
  rcases h1 with h1 | ⟨e1, h1⟩ <;> rcases h2 with h2 | ⟨e2, h2⟩
  · exact Or.inl (lt_trans h2 h1)
  · exact Or.inl (e2 ▸ h1)
  · exact Or.inl (e1.symm ▸ h2)
  · refine Or.inr ⟨e1.trans e2, ?_⟩
    rcases h1 with h1 | ⟨f1, h1⟩ <;> rcases h2 with h2 | ⟨f2, h2⟩
    · exact Or.inl (lt_trans h1 h2)
    · exact Or.inl (f2 ▸ h1)
    · exact Or.inl (f1.symm ▸ h2)
    · exact Or.inr ⟨f1.trans f2, le_trans h1 h2⟩

theorem rankedBefore_total (a b : RetrievalResult) :
    rankedBefore a b ∨ rankedBefore b a := by
  rcases lt_trichotomy a.score b.score with h | h | h
  · exact Or.inr (Or.inl h)
  · rcases lt_trichotomy a.entry.priority.rank b.entry.priority.rank with g | g | g
    · exact Or.inl (Or.inr ⟨h, Or.inl g⟩)
    · rcases Nat.le_total a.entry.chunkIndex b.entry.chunkIndex with k | k
      · exact Or.inl (Or.inr ⟨h, Or.inr ⟨g, k⟩⟩)
      · exact Or.inr (Or.inr ⟨h.symm, Or.inr ⟨g.symm, k⟩⟩)
    · exact Or.inr (Or.inr ⟨h.symm, Or.inl g⟩)
  · exact Or.inl (Or.inl h)

/-- C7: the list of retrieval results returned by the index query is
sorted by descending similarity score, with ties broken first by priority
(critical over high over normal, via Priority.rank) and then by chunk
index ascending. -/
theorem c7_query_ordered (collection : List StoredEntry)
    (queryEmbedding : List ℚ) (topK : Nat) :
    (queryIndex collection queryEmbedding topK).Pairwise rankedBefore := by
  unfold queryIndex
  apply List.Pairwise.sublist (List.take_sublist _ _)
  have hs := @List.sorted_mergeSort RetrievalResult resultLE
    (fun a b c hab hbc => by
      rw [resultLE_iff] at hab hbc ⊢
      exact rankedBefore_trans a b c hab hbc)
    (fun a b => by
      rw [Bool.or_eq_true, resultLE_iff, resultLE_iff]
      exact rankedBefore_total a b)
    (collection.map (fun e => ⟨e, dotSim e.embedding queryEmbedding⟩))
  exact hs.imp (fun h => (resultLE_iff _ _).mp h)

/-! ### Claim C4: dedupe idempotence -/

/-- Folding the highest-priority pick over chunks that all share one
normalization key yields a chunk with that key. -/
theorem foldl_pick_nkey (k : List Char) :
    ∀ (l : List Chunk) (c : Chunk), nkey c = k → (∀ d ∈ l, nkey d = k) →
      nkey (l.foldl pickHigherPriority c) = k := by
  intro l
  induction l with
  | nil => intro c hc _; exact hc
  | cons d t ih =>
    intro c hc hl
    simp only [List.foldl_cons]
    apply ih
    · unfold pickHigherPriority
      split
      · exact hl d (List.mem_cons_self _ _)
      · exact hc
    · intro x hx
      exact hl x (List.mem_cons_of_mem _ hx)

/-- The highest-priority pick of two chunks is one of them. -/
theorem pickHigherPriority_eq_or (c d : Chunk) :
    pickHigherPriority c d = d ∨ pickHigherPriority c d = c := by
  unfold pickHigherPriority
  split
  · exact Or.inl rfl
  · exact Or.inr rfl

/-- The highest-priority pick is one of the folded chunks. -/
theorem foldl_pick_mem :
    ∀ (l : List Chunk) (c : Chunk), l.foldl pickHigherPriority c ∈ c :: l := by
  intro l
  induction l with
  | nil => intro c; exact List.mem_cons_self _ _
  | cons d t ih =>
    intro c
    simp only [List.foldl_cons]
    have h := ih (pickHigherPriority c d)
    rcases pickHigherPriority_eq_or c d with hp | hp <;> rw [hp] at h ⊢
    · exact List.mem_cons_of_mem _ h
    · rw [List.mem_cons] at h
      rcases h with h | h
      · rw [List.mem_cons]
        exact Or.inl h
      · rw [List.mem_cons, List.mem_cons]
        exact Or.inr (Or.inr h)

/-- Every chunk dedupe emits comes from the input list. -/
theorem dedupe_subset : ∀ (l : List Chunk), ∀ c ∈ dedupe l, c ∈ l := by
  intro l
  induction l using dedupe.induct with
  | case1 =>
    intro c hc
    simp [dedupe] at hc
  | case2 c rest ih =>
    intro x hx
    rw [dedupe, List.mem_cons] at hx
    rcases hx with hx | hx
    · have hmem := foldl_pick_mem (rest.filter (fun d => decide (nkey d = nkey c))) c
      rw [← hx] at hmem
      rw [List.mem_cons] at hmem ⊢
      rcases hmem with h | h
      · exact Or.inl h
      · exact Or.inr (List.mem_filter.mp h).1
    · have := ih x hx
      rw [List.mem_cons]
      exact Or.inr (List.mem_filter.mp this).1

/-- The normalization keys of dedupe's output are pairwise distinct. -/
theorem dedupe_nodup_keys :
    ∀ (l : List Chunk), (dedupe l).Pairwise (fun a b => nkey a ≠ nkey b) := by
  intro l
  induction l using dedupe.induct with
  | case1 => simp [dedupe]
  | case2 c rest ih =>
    rw [dedupe]
    apply List.Pairwise.cons
    · intro b hb
      have hbmem : b ∈ rest.filter (fun d => !decide (nkey d = nkey c)) :=
        dedupe_subset _ b hb
      have hbk : nkey b ≠ nkey c := by
        have := List.of_mem_filter hbmem
        simpa using this
      have hbest :
          nkey ((rest.filter (fun d => decide (nkey d = nkey c))).foldl
            pickHigherPriority c) = nkey c := by
        apply foldl_pick_nkey (nkey c) _ c rfl
        intro d hd
        have := List.of_mem_filter hd
        simpa using this
      rw [hbest]
      exact fun he => hbk he.symm
    · exact ih

/-- dedupe leaves a list whose normalization keys are already pairwise
distinct unchanged. -/
theorem dedupe_of_nodup_keys :
    ∀ (l : List Chunk), l.Pairwise (fun a b => nkey a ≠ nkey b) → dedupe l = l := by
  intro l
  induction l using dedupe.induct with
  | case1 => intro _; simp [dedupe]
  | case2 c rest ih =>
    intro hp
    have h1 : rest.filter (fun d => decide (nkey d = nkey c)) = [] := by
      rw [List.filter_eq_nil_iff]
      intro d hd
      simp only [decide_eq_true_eq]
      exact fun he => (List.rel_of_pairwise_cons hp hd) he.symm
    have h2 : rest.filter (fun d => !decide (nkey d = nkey c)) = rest := by
      rw [List.filter_eq_self]
      intro d hd
      simp only [Bool.not_eq_true', decide_eq_false_iff_not]
      exact fun he => (List.rel_of_pairwise_cons hp hd) he.symm
    rw [h2] at ih
    rw [dedupe, h1, h2]
    simp only [List.foldl_nil]
    rw [ih hp.of_cons]

/-- C4: the Deduplicator is idempotent: applying it twice to any list of
chunks equals applying it once. -/
theorem c4_dedupe_idempotent (chunks : List Chunk) :
    dedupe (dedupe chunks) = dedupe chunks :=
  dedupe_of_nodup_keys (dedupe chunks) (dedupe_nodup_keys chunks)

end JwtVis
